import Mathlib

set_option maxRecDepth 40000

/-!
Shallow embedding of the `legit` object database (src/object_database.rs and
src/main.rs): a minimal content-addressable object store with blobs, trees,
commits, SHA-1 identities, and an on-disk object database.

Bytes are modelled as `Nat` (each < 256 in practice), byte buffers as
`List Nat`, and Rust `String` fields as their UTF-8 byte lists. Rust panics
are modelled by an explicit `PanicOr` outcome type; `anyhow::Result` by
`Except String`.
-/

namespace Legit

/-- UTF-8 bytes of an ASCII string literal (every character in our literals
is ASCII, where `Char.toNat` agrees with UTF-8). -/
def strBytes (s : String) : List Nat :=
  s.toList.map Char.toNat

/-- Little-endian decimal digit bytes of `n` (ASCII, least significant
first); `fuel` bounds the recursion so it is structural. -/
def decDigitsAux : Nat → Nat → List Nat
  | 0, _ => []
  | _, 0 => []
  | fuel + 1, n => (n % 10 + 48) :: decDigitsAux fuel (n / 10)

/-- Decimal rendering of a nonnegative integer as ASCII bytes, as produced by
Rust `format!("{}", n)`: most significant digit first, `"0"` for zero. -/
def decBytes (n : Nat) : List Nat :=
  if n = 0 then [48] else (decDigitsAux n n).reverse

/-- Outcome of a Rust computation that may panic. -/
inductive PanicOr (α : Type) where
  | panics : PanicOr α
  | returns : α → PanicOr α
  deriving DecidableEq, Repr

-- +------+
-- | Blob |
-- +------+

/-- `Blob`: a snapshot of one file's raw bytes (`pub contents: Vec<u8>`). -/
structure Blob where
  contents : List Nat
  deriving DecidableEq, Repr

/-- `Blob::serialize`: `format!("blob {}\0", contents.len())` followed by the
raw contents. -/
def Blob.serialize (b : Blob) : List Nat :=
  strBytes "blob " ++ decBytes b.contents.length ++ [0] ++ b.contents

/-- Rust `slice::split(|b| *b == 0u8)` specialised to byte buffers: the
subslices strictly between NUL separators, with one (possibly empty) chunk
before the first separator, between consecutive separators, and after the
last one; the empty slice yields one empty chunk. -/
def splitOn0 : List Nat → List (List Nat)
  | [] => [[]]
  | x :: rest =>
    if x = 0 then
      [] :: splitOn0 rest
    else
      match splitOn0 rest with
      | [] => [[x]]
      | c :: cs => (x :: c) :: cs

/-- `Blob::deserialize`: take the second chunk of the NUL-split input if it
exists (`bytes.split(|b| *b == 0u8).nth(1)`), else `Err(anyhow!("ERROR"))`. -/
def Blob.deserialize (bytes : List Nat) : Except String Blob :=
  match (splitOn0 bytes).get? 1 with
  | some chunk => Except.ok (Blob.mk chunk)
  | none => Except.error "ERROR"

-- +-----------------+
-- | SHA-1 & hex ids |
-- +-----------------+

/-- Reduce to a 32-bit word. -/
def w32 (x : Nat) : Nat := x % 4294967296

/-- Rotate a 32-bit word left by `n` bits. -/
def rotl (n x : Nat) : Nat := w32 (x <<< n) ||| (x >>> (32 - n))

/-- SHA-1 padding: append `0x80`, zero bytes up to 56 mod 64, then the
message bit length as 8 big-endian bytes. -/
def sha1pad (msg : List Nat) : List Nat :=
  let bitlen := msg.length * 8
  msg ++ [128] ++ List.replicate ((119 - msg.length % 64) % 64) 0 ++
    [(bitlen >>> 56) % 256, (bitlen >>> 48) % 256, (bitlen >>> 40) % 256,
     (bitlen >>> 32) % 256, (bitlen >>> 24) % 256, (bitlen >>> 16) % 256,
     (bitlen >>> 8) % 256, bitlen % 256]

/-- Group bytes into big-endian 32-bit words. -/
def bytesToWords : List Nat → List Nat
  | a :: b :: c :: d :: rest =>
      (a * 16777216 + b * 65536 + c * 256 + d) :: bytesToWords rest
  | _ => []

/-- One step of the SHA-1 message-schedule extension: append
`rotl 1 (w[n-3] xor w[n-8] xor w[n-14] xor w[n-16])`. -/
def sha1ExtendStep (w : List Nat) : List Nat :=
  let n := w.length
  w ++ [rotl 1 ((((w.getD (n - 3) 0) ^^^ (w.getD (n - 8) 0)) ^^^
                 (w.getD (n - 14) 0)) ^^^ (w.getD (n - 16) 0))]

/-- Extend 16 schedule words to 80 by iterating `sha1ExtendStep`. -/
def sha1Extend : Nat → List Nat → List Nat
  | 0, w => w
  | k + 1, w => sha1Extend k (sha1ExtendStep w)

/-- SHA-1 round function for round `t`. -/
def sha1f (t b c d : Nat) : Nat :=
  if t < 20 then (b &&& c) ||| ((b ^^^ 4294967295) &&& d)
  else if t < 40 then (b ^^^ c) ^^^ d
  else if t < 60 then ((b &&& c) ||| (b &&& d)) ||| (c &&& d)
  else (b ^^^ c) ^^^ d

/-- SHA-1 round constant for round `t`. -/
def sha1k (t : Nat) : Nat :=
  if t < 20 then 1518500249
  else if t < 40 then 1859775393
  else if t < 60 then 2400959708
  else 3395469782

/-- One SHA-1 compression round. -/
def sha1Round (w : List Nat) (st : Nat × Nat × Nat × Nat × Nat) (t : Nat) :
    Nat × Nat × Nat × Nat × Nat :=
  let (a, b, c, d, e) := st
  let temp := w32 (rotl 5 a + sha1f t b c d + e + sha1k t + w.getD t 0)
  (temp, a, rotl 30 b, c, d)

/-- Process one 64-byte block, updating the five chaining words. -/
def sha1Block (h : Nat × Nat × Nat × Nat × Nat) (block : List Nat) :
    Nat × Nat × Nat × Nat × Nat :=
  let w := sha1Extend 64 (bytesToWords block)
  let (h0, h1, h2, h3, h4) := h
  let (a, b, c, d, e) := (List.range 80).foldl (sha1Round w) h
  (w32 (h0 + a), w32 (h1 + b), w32 (h2 + c), w32 (h3 + d), w32 (h4 + e))

/-- Split a byte list into consecutive 64-byte chunks; `fuel` bounds the
recursion so it is structural. -/
def chunks64Aux : Nat → List Nat → List (List Nat)
  | 0, _ => []
  | _, [] => []
  | fuel + 1, x :: rest => (x :: rest).take 64 :: chunks64Aux fuel ((x :: rest).drop 64)

/-- Split a byte list into consecutive 64-byte chunks. -/
def chunks64 (l : List Nat) : List (List Nat) :=
  chunks64Aux l.length l

/-- Big-endian bytes of one 32-bit word. -/
def wordBytes (x : Nat) : List Nat :=
  [(x >>> 24) % 256, (x >>> 16) % 256, (x >>> 8) % 256, x % 256]

/-- SHA-1 digest of a byte sequence, 20 bytes (the `ring` crate's
`digest(&SHA1_FOR_LEGACY_USE_ONLY, ..)`). -/
def sha1 (msg : List Nat) : List Nat :=
  let (h0, h1, h2, h3, h4) :=
    (chunks64 (sha1pad msg)).foldl sha1Block
      (1732584193, 4023233417, 2562383102, 271733878, 3285377520)
  wordBytes h0 ++ wordBytes h1 ++ wordBytes h2 ++ wordBytes h3 ++ wordBytes h4

/-- Lowercase hex character for a value below 16. -/
def hexChar (d : Nat) : Char :=
  Char.ofNat (if d < 10 then 48 + d else 87 + d)

/-- `ObjectId::as_hex`: each byte rendered as two lowercase, zero-padded hex
characters (`format!("{:02x}", b)`). -/
def asHex (bytes : List Nat) : String :=
  String.mk (bytes.flatMap (fun b => [hexChar (b / 16), hexChar (b % 16)]))

/-- `Object::object_id` composed with `as_hex`: the hex identity of a
serialized byte sequence. -/
def objectIdHex (serialized : List Nat) : String :=
  asHex (sha1 serialized)

-- +--------------+
-- | Entry & Tree |
-- +--------------+

/-- `Entry`: `(mode: u64, path: PathBuf, object_id: ObjectId)`; the path is
modelled by the bytes of its display form, the object id by its 20 raw
bytes. `Entry::new` fixes `mode = 100644`. -/
structure Entry where
  mode : Nat
  path : List Nat
  objectId : List Nat
  deriving DecidableEq, Repr

/-- `Entry::new(path, object_id)`: mode fixed to the decimal constant
`100644`. -/
def Entry.new (path : List Nat) (objectId : List Nat) : Entry :=
  ⟨100644, path, objectId⟩

/-- One entry's contribution inside `Tree::serialize`:
`format!("{} {}\0", entry.mode, entry.path.display())` followed by the raw
20 hash bytes. -/
def Entry.lineBytes (e : Entry) : List Nat :=
  decBytes e.mode ++ [32] ++ e.path ++ [0] ++ e.objectId

/-- `Tree`: `entries: Vec<Entry>`, in the order the caller supplied them. -/
structure Tree where
  entries : List Entry
  deriving DecidableEq, Repr

/-- `Tree::serialize`: concatenate the entry contributions in the stored
(insertion) order, then prepend `format!("tree {}\0", bytes.len())`. -/
def Tree.serialize (t : Tree) : List Nat :=
  let bytes := (t.entries.map Entry.lineBytes).flatten
  strBytes "tree " ++ decBytes bytes.length ++ [0] ++ bytes

/-- `Tree::deserialize`: `std::unimplemented!()`, an unconditional panic. -/
def Tree.deserialize (_bytes : List Nat) : PanicOr (Except String Tree) :=
  PanicOr.panics

-- +----------------------+
-- | Contributor & Commit |
-- +----------------------+

/-- `Contributor`: name and email, modelled as their UTF-8 bytes. -/
structure Contributor where
  name : List Nat
  email : List Nat
  deriving DecidableEq, Repr

/-- `Display for Contributor`: `write!(f, "{} <{}>", name, email)`. -/
def Contributor.displayBytes (c : Contributor) : List Nat :=
  c.name ++ strBytes " <" ++ c.email ++ strBytes ">"

/-- `Commit`: authorship metadata plus the tree's object id (20 raw bytes).
The `chrono::DateTime<Utc>` timestamps are modelled by their nonnegative
epoch seconds; for `Utc`, `format("%s %z")` renders `"<epochSeconds> +0000"`. -/
structure Commit where
  author : Contributor
  authoredAt : Nat
  committer : Contributor
  committedAt : Nat
  message : List Nat
  treeObjectId : List Nat
  deriving DecidableEq, Repr

/-- `"<epochSeconds> +0000"`: `DateTime<Utc>.format("%s %z")`. -/
def tsBytes (epoch : Nat) : List Nat :=
  decBytes epoch ++ strBytes " +0000"

/-- The payload of `Commit::serialize` (the bytes after the
`"commit <n>\0"` header): the raw-string template
`"tree {}\n      author {} {}\n      commit {} {}\n      {}"` — the
continuation lines keep the six spaces of source indentation, the third
line's keyword is `commit`, and there is no blank line before the message. -/
def Commit.payload (c : Commit) : List Nat :=
  strBytes "tree " ++ strBytes (asHex c.treeObjectId) ++
  strBytes "\n      author " ++ c.author.displayBytes ++ [32] ++ tsBytes c.authoredAt ++
  strBytes "\n      commit " ++ c.committer.displayBytes ++ [32] ++ tsBytes c.committedAt ++
  strBytes "\n      " ++ c.message

/-- `Commit::serialize`: `format!("commit {}\0", bytes.len())` followed by
the payload. -/
def Commit.serialize (c : Commit) : List Nat :=
  strBytes "commit " ++ decBytes c.payload.length ++ [0] ++ c.payload

/-- `Commit::deserialize`: `std::unimplemented!()`, an unconditional panic. -/
def Commit.deserialize (_bytes : List Nat) : PanicOr (Except String Commit) :=
  PanicOr.panics

/-- `Commit::message_summary`:
`let len = message.find('\n').unwrap_or(40).min(40); &message[..len]`.
Byte slicing `&s[..len]` panics when `len` exceeds the byte length (the
UTF-8 char-boundary panic is not modelled; all inputs used here are ASCII,
where the two notions agree). -/
def Commit.message_summary (c : Commit) : PanicOr (List Nat) :=
  let len := min ((c.message.findIdx? (fun b => b = 10)).getD 40) 40
  if len ≤ c.message.length then PanicOr.returns (c.message.take len)
  else PanicOr.panics

-- +----------------+
-- | ObjectDatabase |
-- +----------------+

/-- A filesystem state: an association list from paths (component lists) to
file contents, plus the set of directories created so far. `create_dir_all`
and `fs::write` never fail in this model (the claims address the success
path; an existing directory or file is overwritten silently, as in the
code). -/
structure FS where
  files : List (List String × List Nat)
  dirs : List (List String)
  deriving DecidableEq, Repr

/-- Write (or overwrite) one file in the association list. -/
def setFile (p : List String) (v : List Nat) :
    List (List String × List Nat) → List (List String × List Nat)
  | [] => [(p, v)]
  | (q, w) :: rest => if q = p then (p, v) :: rest else (q, w) :: setFile p v rest

/-- Look up one file's contents. -/
def lookupFile (p : List String) :
    List (List String × List Nat) → Option (List Nat)
  | [] => none
  | (q, w) :: rest => if q = p then some w else lookupFile p rest

/-- `std::fs::create_dir_all`: record the directory; creating an existing
directory is a no-op. -/
def insertDir (d : List String) (ds : List (List String)) : List (List String) :=
  if d ∈ ds then ds else d :: ds

/-- `ObjectDatabase`: `objects_path: PathBuf`, modelled as path components. -/
structure ObjectDatabase where
  objects_path : List String
  deriving DecidableEq, Repr

/-- `ObjectDatabase::write_object`, generic over `T: Object` through the
object's serialized bytes (for every kind, `object_id()` is the SHA-1 of
`serialize()`): split the 40-char hex id at index 2, `create_dir_all` the
prefix directory under `objects_path`, and write the serialized bytes to
the file named by the remaining 38 characters. -/
def ObjectDatabase.write_object (db : ObjectDatabase) (serialized : List Nat)
    (fs : FS) : FS :=
  let object_id := objectIdHex serialized
  let dir_name := db.objects_path ++ [object_id.take 2]
  let file_name := object_id.drop 2
  { dirs := insertDir dir_name fs.dirs,
    files := setFile (dir_name ++ [file_name]) serialized fs.files }

-- +----------------------------------+
-- | Spec-side contrast definitions   |
-- +----------------------------------+

/-- The commit payload as the spec describes it (for comparison with
`Commit.payload`): `tree <hex>`, `author ...`, `committer ...`, a blank
line, then the raw message, joined by plain newlines with no leading
whitespace. -/
def commitPayloadSpec (c : Commit) : List Nat :=
  strBytes "tree " ++ strBytes (asHex c.treeObjectId) ++ [10] ++
  strBytes "author " ++ c.author.displayBytes ++ [32] ++ tsBytes c.authoredAt ++ [10] ++
  strBytes "committer " ++ c.committer.displayBytes ++ [32] ++ tsBytes c.committedAt ++ [10] ++
  [10] ++ c.message

/-- The bytes after the first NUL of `b` (empty when `b` has no NUL). -/
def afterFirstNul (b : List Nat) : List Nat :=
  (b.dropWhile (fun x => x ≠ 0)).tail

/-- The bytes strictly between the first and second NUL of `b` (all bytes
after the first NUL when no second NUL exists). -/
def betweenNuls (b : List Nat) : List Nat :=
  (afterFirstNul b).takeWhile (fun x => x ≠ 0)

-- +---------------------------+
-- | Concrete example objects  |
-- +---------------------------+

/-- A concrete commit: author `Ann <ann@x>`, committer `Bob <bob@y>`, both
timestamps at epoch 0, message `msg`, all-zero tree id. -/
def demoCommit : Commit :=
  { author := ⟨strBytes "Ann", strBytes "ann@x"⟩, authoredAt := 0,
    committer := ⟨strBytes "Bob", strBytes "bob@y"⟩, committedAt := 0,
    message := strBytes "msg", treeObjectId := List.replicate 20 0 }

/-- A concrete tree entry named `a.txt`. -/
def entryA : Entry := Entry.new (strBytes "a.txt") (List.replicate 20 17)

/-- A concrete tree entry named `b.txt`. -/
def entryB : Entry := Entry.new (strBytes "b.txt") (List.replicate 20 34)

/-- A commit whose only relevant field is its message (for
`message_summary`, which reads nothing else). -/
def mkCommitMsg (msg : List Nat) : Commit :=
  { author := ⟨[], []⟩, authoredAt := 0, committer := ⟨[], []⟩,
    committedAt := 0, message := msg, treeObjectId := [] }

-- +------------------------+
-- | Lemmas about splitOn0  |
-- +------------------------+

theorem splitOn0_ne_nil (b : List Nat) : splitOn0 b ≠ [] := by
  cases b with
  | nil => simp [splitOn0]
  | cons x rest =>
    simp only [splitOn0]
    split
    · simp
    · cases h : splitOn0 rest <;> simp

theorem splitOn0_head (b : List Nat) :
    (splitOn0 b).head? = some (b.takeWhile (fun x => x ≠ 0)) := by
  induction b with
  | nil => rfl
  | cons x rest ih =>
    by_cases hx : x = 0
    · subst hx
      simp [splitOn0, List.takeWhile_cons]
    · simp only [splitOn0, if_neg hx]
      cases h : splitOn0 rest with
      | nil => exact absurd h (splitOn0_ne_nil rest)
      | cons c cs =>
        rw [h] at ih
        simp only [List.head?] at ih
        simp [List.takeWhile_cons, hx, Option.some.injEq] at ih ⊢
        exact ih

theorem splitOn0_get1 (b : List Nat) :
    (splitOn0 b).get? 1 = if 0 ∈ b then some (betweenNuls b) else none := by
  induction b with
  | nil => rfl
  | cons x rest ih =>
    by_cases hx : x = 0
    · subst hx
      cases h : splitOn0 rest with
      | nil => exact absurd h (splitOn0_ne_nil rest)
      | cons c cs =>
        have hhead := splitOn0_head rest
        rw [h] at hhead
        simp only [List.head?_cons, Option.some.injEq] at hhead
        have hmem : (0 : Nat) ∈ 0 :: rest := List.mem_cons_self 0 rest
        rw [if_pos hmem]
        have hbetween : betweenNuls (0 :: rest) =
            rest.takeWhile (fun x => x ≠ 0) := by
          simp [betweenNuls, afterFirstNul, List.dropWhile_cons]
        rw [hbetween, ← hhead]
        simp only [splitOn0, if_pos rfl, h]
        rfl
    · simp only [splitOn0, if_neg hx]
      cases h : splitOn0 rest with
      | nil => exact absurd h (splitOn0_ne_nil rest)
      | cons c cs =>
        rw [h] at ih
        have hbetween : betweenNuls (x :: rest) = betweenNuls rest := by
          simp [betweenNuls, afterFirstNul, List.dropWhile_cons, hx]
        by_cases h0 : (0 : Nat) ∈ rest
        · rw [if_pos (List.mem_cons_of_mem x h0), hbetween]
          rw [if_pos h0] at ih
          exact ih
        · have hnot : (0 : Nat) ∉ x :: rest := by
            intro hm
            rcases List.mem_cons.mp hm with h1 | h1
            · exact hx h1.symm
            · exact h0 h1
          rw [if_neg hnot]
          rw [if_neg h0] at ih
          exact ih

/-- `Blob::deserialize`, characterized: succeeds exactly when the input has
a NUL, and the reconstructed contents are the bytes strictly between the
first and second NUL (everything after the first NUL when there is no
second one). -/
theorem Blob.deserialize_eq (b : List Nat) :
    Blob.deserialize b =
      if 0 ∈ b then Except.ok (Blob.mk (betweenNuls b)) else Except.error "ERROR" := by
  unfold Blob.deserialize
  rw [splitOn0_get1]
  by_cases h : 0 ∈ b <;> simp [h]

-- +--------------------------------+
-- | Lemmas about headers and NULs  |
-- +--------------------------------+

theorem decDigitsAux_mem_ge {fuel n x : Nat} (h : x ∈ decDigitsAux fuel n) :
    48 ≤ x := by
  induction fuel generalizing n with
  | zero => simp [decDigitsAux] at h
  | succ fuel ih =>
    cases n with
    | zero => simp [decDigitsAux] at h
    | succ m =>
      simp only [decDigitsAux, List.mem_cons] at h
      rcases h with h | h
      · omega
      · exact ih h

theorem decBytes_ne_zero {n x : Nat} (h : x ∈ decBytes n) : x ≠ 0 := by
  unfold decBytes at h
  split at h
  · simp at h; omega
  · rw [List.mem_reverse] at h
    have := decDigitsAux_mem_ge h
    omega

theorem zero_not_mem_blobHeader (n : Nat) :
    0 ∉ strBytes "blob " ++ decBytes n := by
  intro h
  rw [List.mem_append] at h
  rcases h with h | h
  · simp [strBytes] at h
  · exact decBytes_ne_zero h rfl

theorem dropWhile_append_nul {hdr : List Nat} (b : List Nat) (h : 0 ∉ hdr) :
    (hdr ++ 0 :: b).dropWhile (fun x => x ≠ 0) = 0 :: b := by
  induction hdr with
  | nil => simp [List.dropWhile_cons]
  | cons y ys ih =>
    simp only [List.mem_cons, not_or] at h
    have ih2 := ih h.2
    simp only [decide_not] at ih2 ⊢
    simp [List.cons_append, List.dropWhile_cons, Ne.symm h.1, ih2]

theorem takeWhile_of_no_nul {b : List Nat} (h : 0 ∉ b) :
    b.takeWhile (fun x => x ≠ 0) = b := by
  induction b with
  | nil => rfl
  | cons y ys ih =>
    simp only [List.mem_cons, not_or] at h
    have ih2 := ih h.2
    simp only [decide_not] at ih2 ⊢
    simp [List.takeWhile_cons, Ne.symm h.1, ih2]

-- +--------------------------+
-- | Lemmas about FS updates  |
-- +--------------------------+

theorem lookupFile_setFile_self (p : List String) (v : List Nat)
    (fs : List (List String × List Nat)) :
    lookupFile p (setFile p v fs) = some v := by
  induction fs with
  | nil => simp [setFile, lookupFile]
  | cons qw rest ih =>
    obtain ⟨q, w⟩ := qw
    by_cases h : q = p
    · simp [setFile, lookupFile, h]
    · simp [setFile, lookupFile, h, ih]

theorem lookupFile_setFile_ne (p q : List String) (v : List Nat)
    (fs : List (List String × List Nat)) (h : q ≠ p) :
    lookupFile q (setFile p v fs) = lookupFile q fs := by
  induction fs with
  | nil => simp [setFile, lookupFile, Ne.symm h]
  | cons rw rest ih =>
    obtain ⟨r, w⟩ := rw
    by_cases hr : r = p
    · subst hr
      simp [setFile, lookupFile, Ne.symm h]
    · simp [setFile, lookupFile, hr, ih]

theorem setFile_idem (p : List String) (v : List Nat)
    (fs : List (List String × List Nat)) :
    setFile p v (setFile p v fs) = setFile p v fs := by
  induction fs with
  | nil => simp [setFile]
  | cons qw rest ih =>
    obtain ⟨q, w⟩ := qw
    by_cases h : q = p
    · simp [setFile, h]
    · simp [setFile, h, ih]

theorem insertDir_idem (d : List String) (ds : List (List String)) :
    insertDir d (insertDir d ds) = insertDir d ds := by
  by_cases h : d ∈ ds
  · simp [insertDir, h]
  · simp [insertDir, h]

-- +------------------+
-- | Claim theorems   |
-- +------------------+

/-- Claim C1 (code evaluated at a failing input): the payload of
`Commit::serialize` carries six spaces of source indentation on every
continuation line, labels the committer line `commit` instead of
`committer`, and has no blank line before the message — so it differs from
the payload the spec describes (`tree`/`author`/`committer`/blank
line/message, no leading whitespace). -/
theorem c1_commit_payload_indented_and_mislabeled :
    Commit.payload demoCommit =
      strBytes "tree 0000000000000000000000000000000000000000\n      author Ann <ann@x> 0 +0000\n      commit Bob <bob@y> 0 +0000\n      msg"
    ∧ Commit.payload demoCommit ≠ commitPayloadSpec demoCommit := by
  constructor
  · decide
  · decide

/-- Claim C2 (code evaluated at a failing input): `Tree::serialize`
concatenates entries in insertion order, so the same two entries inserted
in the two possible orders give different serializations and different
object ids. -/
theorem c2_tree_serialize_depends_on_entry_order :
    Tree.serialize (Tree.mk [entryA, entryB]) ≠ Tree.serialize (Tree.mk [entryB, entryA])
    ∧ objectIdHex (Tree.serialize (Tree.mk [entryA, entryB]))
        ≠ objectIdHex (Tree.serialize (Tree.mk [entryB, entryA])) := by
  constructor
  · decide
  · decide

/-- Claim C3: for every byte sequence `b` with no NUL byte, deserializing
the serialization of `Blob(b)` succeeds and yields a blob whose contents
equal `b`. -/
theorem c3_blob_round_trip (b : List Nat) (h : 0 ∉ b) :
    Blob.deserialize (Blob.serialize (Blob.mk b)) = Except.ok (Blob.mk b) := by
  have hser : Blob.serialize (Blob.mk b)
      = (strBytes "blob " ++ decBytes b.length) ++ 0 :: b := by
    simp [Blob.serialize, List.append_assoc]
  rw [hser, Blob.deserialize_eq]
  have hmem : (0 : Nat) ∈ (strBytes "blob " ++ decBytes b.length) ++ 0 :: b := by
    simp
  rw [if_pos hmem]
  have hb : betweenNuls ((strBytes "blob " ++ decBytes b.length) ++ 0 :: b) = b := by
    unfold betweenNuls afterFirstNul
    rw [dropWhile_append_nul b (zero_not_mem_blobHeader b.length)]
    simpa using takeWhile_of_no_nul h
  rw [hb]

/-- Witness for C3 at the concrete contents `"hi"`. -/
theorem c3_blob_round_trip_witness :
    Blob.deserialize (Blob.serialize (Blob.mk (strBytes "hi")))
      = Except.ok (Blob.mk (strBytes "hi")) :=
  c3_blob_round_trip (strBytes "hi") (by decide)

/-- Claim C4 counterexample: an input whose kind tag `xxxx` is not a
recognized kind and whose declared length `999` does not match the two
remaining bytes, yet `Blob::deserialize` succeeds instead of returning a
parse error — neither the kind nor the length is validated. -/
theorem c4_cex_no_length_or_kind_validation :
    Blob.deserialize (strBytes "xxxx 999" ++ [0] ++ strBytes "ab")
      = Except.ok (Blob.mk (strBytes "ab")) := by
  rfl

/-- Claim C4 as amended: `Blob::deserialize` returns its error value
exactly when the input contains no NUL byte; the declared length and the
kind tag are never checked. -/
theorem c4_deserialize_error_iff_no_nul (b : List Nat) :
    Blob.deserialize b = Except.error "ERROR" ↔ 0 ∉ b := by
  rw [Blob.deserialize_eq]
  by_cases h : 0 ∈ b <;> simp [h]

/-- Claim C5 counterexample: `Tree::deserialize` and `Commit::deserialize`
panic (`std::unimplemented!()`) already on the empty input — the outcome is
a panic, not a `NotImplemented` error value distinguishable from
`ParseError`. -/
theorem c5_cex_tree_commit_deserialize_panic :
    Tree.deserialize [] = PanicOr.panics ∧ Commit.deserialize [] = PanicOr.panics :=
  ⟨rfl, rfl⟩

/-- Claim C5 as amended: on every input, `Tree::deserialize` and
`Commit::deserialize` panic unconditionally; they never succeed and never
return an error value. -/
theorem c5_tree_commit_deserialize_always_panic (b : List Nat) :
    Tree.deserialize b = PanicOr.panics ∧ Commit.deserialize b = PanicOr.panics :=
  ⟨rfl, rfl⟩

/-- Claim C6 (code evaluated at a failing input): `message_summary` panics
on the two-byte message `hi` (it slices `&message[..40]` past the end),
while it does truncate `hello\nworld` to `hello` — the claim that it is
defined for every message, in particular short ones, fails. -/
theorem c6_message_summary_panics_on_short_message :
    Commit.message_summary (mkCommitMsg (strBytes "hi")) = PanicOr.panics
    ∧ Commit.message_summary (mkCommitMsg (strBytes "hello\nworld"))
        = PanicOr.returns (strBytes "hello") := by
  constructor
  · decide
  · decide

/-- Claim C7 counterexample: the hex object id of `Blob("hello\n")` is not
the 39-character string the claim gives (`as_hex` always renders 40
characters; the claim's value dropped the trailing `a`). -/
theorem c7_cex_spec_hex_id_wrong :
    objectIdHex (Blob.serialize (Blob.mk (strBytes "hello\n")))
      ≠ "ce013625030ba8dba906f756967f9e9ca394464" := by
  decide

/-- Claim C7 as amended: `Blob::serialize` produces `"blob "`, the decimal
length, a NUL, then the contents unmodified; `Blob("hello\n")` serializes
to `"blob 6\0hello\n"` and its hex object id is
`ce013625030ba8dba906f756967f9e9ca394464a`. -/
theorem c7_blob_serialize_frame_and_hello_id :
    (∀ b : List Nat, Blob.serialize (Blob.mk b)
        = strBytes "blob " ++ decBytes b.length ++ [0] ++ b)
    ∧ Blob.serialize (Blob.mk (strBytes "hello\n"))
        = strBytes "blob 6" ++ [0] ++ strBytes "hello\n"
    ∧ objectIdHex (Blob.serialize (Blob.mk (strBytes "hello\n")))
        = "ce013625030ba8dba906f756967f9e9ca394464a" := by
  refine ⟨fun b => rfl, by decide, by decide⟩

/-- Claim C8: `write_object` stores the serialized bytes in exactly one
file, at `objects_path/<id[0:2]>/<id[2:]>` where `id` is the 40-character
hex identity of the serialized bytes, and leaves every other file
unchanged. -/
theorem c8_write_object_path_and_frame (db : ObjectDatabase) (s : List Nat)
    (fs : FS) :
    lookupFile (db.objects_path ++ [(objectIdHex s).take 2, (objectIdHex s).drop 2])
      (db.write_object s fs).files = some s
    ∧ ∀ q, q ≠ db.objects_path ++ [(objectIdHex s).take 2, (objectIdHex s).drop 2] →
        lookupFile q (db.write_object s fs).files = lookupFile q fs.files := by
  have hpath : db.objects_path ++ [(objectIdHex s).take 2, (objectIdHex s).drop 2]
      = (db.objects_path ++ [(objectIdHex s).take 2]) ++ [(objectIdHex s).drop 2] :=
    (List.append_assoc db.objects_path [(objectIdHex s).take 2]
      [(objectIdHex s).drop 2]).symm
  constructor
  · rw [hpath]
    exact lookupFile_setFile_self _ _ _
  · intro q hq
    rw [hpath] at hq
    exact lookupFile_setFile_ne _ _ _ _ hq

/-- Witness for C8: writing the empty byte sequence into an empty database
stores it at the derived path and leaves an unrelated path absent. -/
theorem c8_write_object_path_and_frame_witness :
    lookupFile (["objects"] ++ [(objectIdHex []).take 2, (objectIdHex []).drop 2])
      ((ObjectDatabase.mk ["objects"]).write_object [] (FS.mk [] [])).files = some []
    ∧ lookupFile [".git", "HEAD"]
        ((ObjectDatabase.mk ["objects"]).write_object [] (FS.mk [] [])).files
      = lookupFile [".git", "HEAD"] (FS.mk [] []).files :=
  ⟨(c8_write_object_path_and_frame (ObjectDatabase.mk ["objects"]) [] (FS.mk [] [])).1,
   (c8_write_object_path_and_frame (ObjectDatabase.mk ["objects"]) [] (FS.mk [] [])).2
     [".git", "HEAD"] (by decide)⟩

/-- Claim C9: `write_object` is idempotent — writing the same object twice
yields exactly the filesystem state of writing it once. -/
theorem c9_write_object_idempotent (db : ObjectDatabase) (s : List Nat)
    (fs : FS) :
    db.write_object s (db.write_object s fs) = db.write_object s fs := by
  unfold ObjectDatabase.write_object
  simp [setFile_idem, insertDir_idem]

/-- Claim C10: `Blob::deserialize` succeeds exactly when the input contains
a NUL byte, and on success the contents are the bytes strictly between the
first and second NUL (all bytes after the first NUL when no second one
exists); the header's kind tag and declared length do not affect the
result. -/
theorem c10_deserialize_depends_only_on_nuls (b : List Nat) :
    Blob.deserialize b =
      if 0 ∈ b then Except.ok (Blob.mk (betweenNuls b)) else Except.error "ERROR" :=
  Blob.deserialize_eq b

end Legit
